import Mathlib

/-!
Verification development for the MockMate question-generation and
answer-scoring pipeline (interviewapp: qgen_groq.py, nlp_utils.py,
views_helpers.py).

Modelling conventions:
* Python strings are modelled as lists of characters (abbreviation Str).
  Python's str.lower / str.strip / str.split are modelled character-wise;
  the inputs of interest are ASCII, where Lean's Char.toLower and
  Char.isWhitespace agree with Python's behaviour.
* The sha256 digest used for deduplication is collision-resistant; it is
  modelled as an injective function of its input, i.e. the signature of a
  text is identified with the normalized text itself (lowercased,
  whitespace collapsed).  Equality / distinctness of signatures is then
  equality / distinctness of normalized texts.
* The external Groq client is a network call; it is modelled as an oracle
  indexed by the call number.  Each call either fails (the wrapped call
  raised), fails to parse (the response text held no JSON array / invalid
  JSON / a non-list), or yields a list of parsed JSON elements.  A parsed
  element is modelled by the fields the validator reads (Option RawObj,
  with none standing for a non-dict element).  Validation itself can
  raise: a truthy non-string "type" value makes .lower() raise an
  uncaught AttributeError, so validation and everything downstream
  return Except, and an error outcome of generate_questions_groq stands
  for that exception propagating to the caller (its payload is the
  ghost log of prompts sent before the crash).
* Python floats only occur in two places: the keyword score
  int((matched / max(1, len(keywords))) * 40), modelled as Nat floor
  division (40 * matched) / max 1 len, which agrees with the float
  computation on all list lengths up to thousands; and the math quota
  round(n * math_ratio), where the role ratios are modelled as the exact
  rationals 1/2, 1/20, 0, 2/5 and round as Python's banker rounding
  (half to even).
* random.choice / random.randint are modelled by an oracle of naturals,
  consumed one value per random call (choice picks index rng k mod the
  list length; randint a b picks a + rng k mod (b - a + 1)).
* spaCy tokenization is external; it is modelled as whitespace word
  tokenization.  The only structural fact the proofs use is that a spaCy
  token is a contiguous piece of the text with no internal whitespace, so
  no token ever equals a multi-word phrase.
-/

/-- Python strings as character lists. -/
abbrev Str := List Char

/-- Coerce a Lean string literal to the Str model. -/
def chars (s : String) : Str := s.data

/-- Python str.lower (ASCII). -/
def lowerStr (s : Str) : Str := s.map Char.toLower

/-- Helper for pyWords: accumulate the current word (reversed). -/
def pyWordsAux : Str → Str → List Str
  | [], acc => if acc.isEmpty then [] else [acc.reverse]
  | c :: t, acc =>
    if c.isWhitespace then
      if acc.isEmpty then pyWordsAux t [] else acc.reverse :: pyWordsAux t []
    else pyWordsAux t (c :: acc)

/-- Python str.split() with no argument: split on whitespace runs,
dropping empty pieces. -/
def pyWords (s : Str) : List Str := pyWordsAux s []

/-- Python str.strip(): drop leading and trailing whitespace. -/
def trimStr (s : Str) : Str :=
  ((s.dropWhile Char.isWhitespace).reverse.dropWhile Char.isWhitespace).reverse

/-- Python s.split(","): split at every comma, keeping empty pieces. -/
def splitComma : Str → List Str
  | [] => [[]]
  | c :: t => if c = ',' then [] :: splitComma t else (splitComma t).modifyHead (c :: ·)

/-- Python ",".join. -/
def joinComma (l : List Str) : Str := List.intercalate [','] l

/-- Python substring membership (needle in haystack). -/
def containsSub : Str → Str → Bool
  | hay, needle =>
    if needle.isPrefixOf hay then true
    else match hay with
      | [] => false
      | _ :: t => containsSub t needle

/-- Python str.capitalize(): first character upper-cased, rest lower-cased. -/
def capitalizeStr : Str → Str
  | [] => []
  | c :: t => c.toUpper :: lowerStr t

/-- Decimal rendering of a natural number (Python str(n) for n ≥ 0). -/
def natStr (n : Nat) : Str := (Nat.repr n).data

/-- Decimal rendering of an integer (Python str(i)). -/
def intStr (i : Int) : Str := (toString i).data

/-- Python round() on an exact rational: round half to even.  Used in
statements; pyRoundNat below is the executable counterpart for the
nonnegative fractions that actually occur. -/
def pyRound (q : ℚ) : ℤ :=
  if q - ⌊q⌋ < 1/2 then ⌊q⌋
  else if 1/2 < q - ⌊q⌋ then ⌊q⌋ + 1
  else if ⌊q⌋ % 2 = 0 then ⌊q⌋ else ⌊q⌋ + 1

/-- Python round(a/b) for naturals with b > 0: round half to even,
in executable natural arithmetic. -/
def pyRoundNat (a b : ℕ) : ℕ :=
  if 2 * (a % b) < b then a / b
  else if b < 2 * (a % b) then a / b + 1
  else if (a / b) % 2 = 0 then a / b else a / b + 1

/-! ### nlp_utils.py: the answer scorer -/

/-- FILLERS from nlp_utils.py. -/
def FILLERS : List Str :=
  [chars "um", chars "uh", chars "like", chars "you know", chars "hmm"]

/-- The target question as the scorer sees it (an ORM Question row:
only text and keywords are read). -/
structure Question where
  text : Str
  keywords : Str

/-- The evaluation dict produced by analyze_transcript. -/
structure AnswerEvaluation where
  score : Int
  feedback : Str
  improvement_tips : List Str
deriving DecidableEq

/-- The three fixed tips of the empty-answer branch. -/
def fallbackTips : List Str :=
  [chars "Answer the question in your own words",
   chars "Explain the main idea clearly",
   chars "Add an example to support your explanation"]

/-- Filler count of nlp_utils.analyze_transcript: tokenize, lowercase each
token, count tokens belonging to FILLERS.  spaCy tokens are modelled as
whitespace words (a spaCy token never contains internal whitespace). -/
def fillerCountOf (text : Str) : Nat :=
  ((pyWords text).map lowerStr).countP (fun t => FILLERS.contains t)

/-- Keyword list of analyze_transcript: split the question's keywords on
commas, strip each, drop empties, lowercase.  Empty when the question is
absent or its keywords string is empty (falsy). -/
def keywordListOf (question : Option Question) : List Str :=
  match question with
  | none => []
  | some q =>
    if q.keywords = [] then []
    else (splitComma q.keywords).filterMap fun k =>
      let t := trimStr k
      if t = [] then none else some (lowerStr t)

/-- nlp_utils.analyze_transcript.  The AI tips helper
generate_ai_improvement_tips is an external call followed by JSON
parsing; its outcome is modelled by aiTips: none stands for any failure
or a non-list result (the helper returns []), some l for a parsed JSON
list, of which the helper keeps the first 5. -/
def analyze_transcript (text : Str) (question : Option Question)
    (aiTips : Option (List Str)) : AnswerEvaluation :=
  if text = [] then
    ⟨0, chars "You did not provide an answer to this question.", fallbackTips⟩
  else
    let fillers := fillerCountOf text
    let kws := keywordListOf question
    let matched := kws.countP (fun k => containsSub (lowerStr text) k)
    let keyword_score : Int :=
      if kws ≠ [] then (((40 * matched) / max 1 kws.length : Nat) : Int) else 20
    let length_score : Int := min 20 (max 5 ((pyWords text).length : Int))
    let grammar_score : Int := 25 - min 10 ((fillers : Int) * 2)
    let filler_penalty : Int := min 15 ((fillers : Int) * 3)
    let total : Int := max 0 (keyword_score + length_score + grammar_score - filler_penalty)
    let word_count := (pyWords text).length
    let feedback_parts : List Str :=
      [if word_count < 12 then
          chars "Your answer is very short and does not fully explain the concept."
        else if word_count < 25 then
          chars "Your answer explains the idea briefly, but it needs more depth."
        else
          chars "You have explained the concept reasonably well."] ++
      (if kws ≠ [] ∧ matched = 0 then
          [chars "Important points related to the question are missing."]
        else if kws ≠ [] ∧ matched < kws.length then
          [chars "Some important aspects of the topic are missing from your explanation."]
        else []) ++
      (if 0 < fillers then
          [chars "Try to reduce filler words to make your answer clearer and more confident."]
        else [])
    let feedback := List.intercalate (chars " ") feedback_parts
    let rule_tips : List Str :=
      (if word_count < 25 then [chars "Explain the concept in 2–3 clear sentences"] else []) ++
      (if kws ≠ [] ∧ matched < kws.length then [chars "Include definition, purpose, and usage"] else []) ++
      [chars "Add a simple real-world or technical example"]
    let ai_tips : List Str := match aiTips with
      | some l => l.take 5
      | none => []
    let improvement_tips := if ai_tips ≠ [] then ai_tips else rule_tips
    ⟨total, feedback, improvement_tips⟩

/-! ### qgen_groq.py: data model and helpers -/

/-- Question type after validation ("math" or "reasoning"). -/
inductive QType
  | math
  | reasoning
deriving DecidableEq

/-- A validated question dict: keys text, keywords, difficulty, type. -/
structure QItem where
  text : Str
  keywords : Str
  difficulty : Int
  type : QType
deriving DecidableEq

/-- The keywords field of a raw JSON element: a JSON list (its elements
already rendered by str()) or a scalar (rendered by str()); an absent key
defaults to the scalar "". -/
inductive KwField
  | list (l : List Str)
  | scalar (s : Str)
deriving DecidableEq

/-- The "type" value of a raw JSON dict as the validator reads it.
missing covers an absent key and any falsy value (None, 0, False, ""
is covered by str [] as well) — the validator then uses "".  A truthy
non-string value (e.g. the integer 1) is a distinct case: calling
.lower() on it raises an uncaught AttributeError. -/
inductive TypeField
  | missing
  | str (s : Str)
  | truthyNonStr
deriving DecidableEq

/-- The uncaught Python exception the validator can raise:
AttributeError from .lower() on a truthy non-string "type" value
(qgen_groq.py line 209), outside every try block, so it propagates out
of generate_questions_groq. -/
inductive PyError
  | attributeError
deriving DecidableEq

/-- A raw JSON dict as read by _validate_question_obj: text is some s
when the key holds the string s (none for a missing or non-string
value — both are rejected); difficulty is some d when int() coercion
succeeds with value d (none when it raises; an absent key is some 3,
the dict default); qtype is the "type" value as TypeField. -/
structure RawObj where
  text : Option Str
  keywords : KwField
  difficulty : Option Int
  qtype : TypeField
deriving DecidableEq

/-- Outcome of one external call as the generator observes it: the
client raised after its retries (fail), the response text held no JSON
array / was invalid JSON / was not a list (badParse), or a parsed list
of elements, each a dict (some RawObj) or not a dict (none). -/
inductive ClientResp
  | fail
  | badParse
  | ok (objs : List (Option RawObj))

/-- The external client as a call-indexed oracle. -/
abbrev Client := Nat → ClientResp

/-- The random source as a call-indexed oracle of naturals. -/
abbrev Rng := Nat → Nat

/-- qgen_groq._normalize_role_key. -/
def normalize_role_key (role : Str) : Str :=
  if role = [] then chars "default"
  else
    let r := lowerStr role
    if containsSub r (chars "tech") || containsSub r (chars "technical") then chars "technical"
    else if containsSub r (chars "apt") || containsSub r (chars "aptitude") then chars "aptitude"
    else if containsSub r (chars "hr") || containsSub r (chars "human") then chars "hr"
    else if containsSub r (chars "beh") || containsSub r (chars "behavior") then chars "beh"
    else chars "default"

/-- ROLE_MATH_RATIO lookup with its .get default (the "default" entry).
The float ratios 0.5, 0.05, 0.0, 0.0, 0.4 are modelled as exact
rationals. -/
def roleMathRatio (k : Str) : ℚ :=
  if k = chars "aptitude" then 1/2
  else if k = chars "technical" then 1/20
  else if k = chars "hr" then 0
  else if k = chars "beh" then 0
  else 2/5

/-- The role math ratios in twentieths (executable counterpart of
roleMathRatio: 10/20, 1/20, 0/20, 0/20, 8/20). -/
def roleMathRatioNum (k : Str) : ℕ :=
  if k = chars "aptitude" then 10
  else if k = chars "technical" then 1
  else if k = chars "hr" then 0
  else if k = chars "beh" then 0
  else 8

/-- ROLE_ALLOWED_TYPES lookup with its .get default (the "default"
entry). -/
def role_allowed_types (k : Str) : List QType :=
  if k = chars "aptitude" then [QType.math, QType.reasoning]
  else if k = chars "technical" then [QType.reasoning]
  else if k = chars "hr" then [QType.reasoning]
  else if k = chars "beh" then [QType.reasoning]
  else [QType.math, QType.reasoning]

/-- qgen_groq.signature_of_text: sha256 of the normalized text
(lowercase, whitespace collapsed to single spaces).  The hash is
modelled as an injective function, so the signature is identified with
the normalized text. -/
def signature_of_text (text : Str) : Str :=
  List.intercalate [' '] (pyWords (lowerStr text))

/-- Presence of a _NUMERIC_RE match: the regex requires at least one
digit, and any digit yields a match. -/
def hasNumericMatch (s : Str) : Bool := s.any Char.isDigit

/-- The fixed math vocabulary of _is_math_question_textual. -/
def math_words : List Str :=
  [chars "calculate", chars "compute", chars "probability", chars "percent",
   chars "ratio", chars "sum", chars "difference", chars "distance",
   chars "speed", chars "time", chars "how many",
   chars "what is the next number", chars "series", chars "expected value",
   chars "mean", chars "median", chars "mode"]

/-- qgen_groq._is_math_question_textual. -/
def is_math_question_textual (text : Str) : Bool :=
  if text = [] then false
  else
    let t := lowerStr text
    if hasNumericMatch t then true
    else if containsSub t (chars "%") || containsSub t (chars "$") ||
            containsSub t (chars "₹") || containsSub t (chars "rupee") then true
    else math_words.any (fun w => containsSub t w)

/-- qgen_groq._validate_question_obj.  The qtype line runs before the
text check (source order: line 209 before lines 210-211), so a truthy
non-string "type" value raises AttributeError even when the text field
would have been rejected; the error is uncaught and propagates. -/
def validate_question_obj (o : Option RawObj) : Except PyError (Option QItem) :=
  match o with
  | none => Except.ok none
  | some obj =>
    if obj.qtype = TypeField.truthyNonStr then Except.error PyError.attributeError
    else
      match obj.text with
      | none => Except.ok none
      | some t =>
        if t = [] then Except.ok none
        else
          let difficulty : Int := match obj.difficulty with
            | some d => max 1 (min 5 d)
            | none => 3
          let keywords : Str := match obj.keywords with
            | KwField.list l => joinComma ((l.filter (· ≠ [])).map trimStr)
            | KwField.scalar s => trimStr s
          let qt : Str := match obj.qtype with
            | TypeField.str s => if s = [] then [] else lowerStr s
            | _ => []
          let qtype : QType :=
            if qt = chars "math" then QType.math
            else if qt = chars "reasoning" then QType.reasoning
            else if is_math_question_textual t then QType.math
            else QType.reasoning
          Except.ok (some ⟨trimStr t, keywords, difficulty, qtype⟩)

/-- The canned numeric example appended by _ensure_math_has_number. -/
def enrichExample : Str := chars " For example: If 10 items cost 25, how much for 4?"

/-- qgen_groq._ensure_math_has_number. -/
def ensure_math_has_number (q : QItem) : QItem :=
  let text := trimStr q.text
  if q.type = QType.math ∧ hasNumericMatch text = false then
    { q with
      text := (text ++ enrichExample).take 1000,
      keywords := if q.keywords ≠ [] then q.keywords ++ chars ",numbers" else chars "numbers" }
  else q

/-- qgen_groq._is_math_question: declared math type or textual cues. -/
def is_math_question (q : QItem) : Bool :=
  q.type = QType.math || is_math_question_textual q.text

/-- qgen_groq._build_prompt. -/
def build_prompt (role : Str) (n : Nat) (difficulty : Int) (math_needed : Nat) : Str :=
  let math_clause : Str :=
    if 0 < math_needed then
      chars "- Exactly " ++ natStr math_needed ++ chars " of the " ++ natStr n ++
        chars " items MUST be of type \"math\" and include numeric data.\n"
    else
      chars "- ZERO items of the " ++ natStr n ++
        chars " items should be of type \"math\".\n"
  chars "\nYou are a careful interview question generator.\n\nTASK:\nGenerate EXACTLY " ++
  natStr n ++
  chars " unique interview questions for the role \"" ++ role ++
  chars "\" and difficulty " ++ intStr difficulty ++
  chars ".\nReturn ONLY a JSON array. Each entry MUST be an object with keys:\n  - \"text\": string - the question text (≤ 300 chars). For math questions include numeric data and a clear ask.\n  - \"keywords\": string - comma-separated keywords.\n  - \"difficulty\": integer 1-5.\n  - \"type\": string - either \"math\" or \"reasoning\".\n\nMIX RULE:\n" ++
  math_clause ++
  chars "\n- The rest of the items must be of type \"reasoning\".\n- Ensure variety: do not repeat same template or numeric values.\n- If you cannot meet constraints, return an empty array [].\n\nFORMAT RULES:\n- RETURN ONLY the JSON array and NOTHING ELSE (no commentary, no markdown).\n- Ensure valid JSON (double quotes, no trailing commas).\n\nExamples:\n[\n  \x7b\"text\":\"A machine produces 120 parts in 8 hours. At the same rate how many parts in 5 hours?\",\"keywords\":\"rate,proportion\",\"difficulty\":2,\"type\":\"math\"\x7d,\n  \x7b\"text\":\"Describe a time you handled conflicting priorities and how you decided.\",\"keywords\":\"prioritization,tradeoffs\",\"difficulty\":3,\"type\":\"reasoning\"\x7d\n]\n\nCONSTRAINTS:\n- Avoid PII or offensive content.\n- Keep questions clear and answerable within 1-5 minutes.\n"

/-! ### views_helpers.py: the template stub generator -/

/-- Payload of generate_question_stub: no type key. -/
structure StubPayload where
  text : Str
  keywords : Str
  difficulty : Int

/-- Arguments a template is filled with. -/
structure TmplArgs where
  a : Str
  b : Str
  scenario : Str
  nv : Nat
  mv : Nat

/-- tech_terms from views_helpers.py. -/
def tech_terms : List Str :=
  [chars "process", chars "thread", chars "database indexing", chars "REST API",
   chars "authentication", chars "caching", chars "load balancing",
   chars "microservices", chars "HTTP protocol", chars "Docker container"]

/-- scenarios from views_helpers.py. -/
def scenarios : List Str :=
  [chars "a production outage", chars "a conflicting requirement",
   chars "a tight deadline", chars "scaling the system to 10x",
   chars "optimizing slow database queries", chars "managing teamwork conflicts",
   chars "debugging a critical bug", chars "handling unexpected edge cases"]

/-- The template tables of views_helpers.py, with str.format of each
literal template inlined as a function of the fill-in arguments. -/
def templatesFor (k : Str) : List (TmplArgs → Str) :=
  if k = chars "tech" then
    [fun g => chars "Explain how " ++ g.a ++ chars " works and give an example.",
     fun g => chars "Describe the difference between " ++ g.a ++ chars " and " ++ g.b ++
       chars " with a real-life example.",
     fun g => chars "How would you troubleshoot issues related to " ++ g.a ++ chars "?",
     fun g => chars "Design a small system using " ++ g.a ++ chars " and explain the flow.",
     fun g => chars "What are common mistakes developers make with " ++ g.a ++ chars "?"]
  else if k = chars "hr" then
    [fun g => chars "Tell me about a time you handled " ++ g.scenario ++ chars ".",
     fun _ => chars "Describe your strengths and weaknesses in a real situation.",
     fun _ => chars "How do you deal with conflicts inside a team?",
     fun _ => chars "Why do you think you are a good fit for this role?",
     fun _ => chars "Describe your biggest achievement and how you reached it."]
  else if k = chars "apt" then
    [fun g => chars "If " ++ natStr g.nv ++ chars " people share " ++ natStr g.mv ++
       chars " items, how many items per person? Explain reasoning.",
     fun _ => chars "Solve a real-life problem using ratios or percentages.",
     fun _ => chars "Explain how to break a complex problem into smaller steps.",
     fun _ => chars "Given a series: 2, 6, 18… find the next term and justify.",
     fun _ => chars "How do you approach solving optimization problems?"]
  else
    [fun _ => chars "Tell me about a time you had to make a quick decision under pressure.",
     fun _ => chars "Describe a failure you experienced and what you learned.",
     fun _ => chars "How do you motivate yourself during repetitive tasks?",
     fun _ => chars "Explain a situation where you took leadership voluntarily.",
     fun _ => chars "Describe how you handle criticism or negative feedback."]

/-- Keyword assembly of generate_question_stub: walk [a, b, first word of
the scenario, "explain"], appending the lowercase of each truthy entry
while fewer than 4 were collected, then join with commas. -/
def buildStubKeywords (a b scenario : Str) : Str :=
  let cand : List Str := [a, b, (pyWords scenario).getD 0 [], chars "explain"]
  joinComma (cand.foldl (fun acc kw =>
    if kw ≠ [] ∧ acc.length < 4 then acc ++ [lowerStr kw] else acc) [])

/-- views_helpers.generate_question_stub.  The five random draws consume
rng indices ri .. ri+5 in source order (template, a, b, scenario,
randint(2,20), randint(5,100)). -/
def generate_question_stub (role : Str) (difficulty : Int) (rng : Rng) (ri : Nat) : StubPayload :=
  let role_key :=
    if role = chars "tech" ∨ role = chars "hr" ∨ role = chars "apt" ∨ role = chars "beh"
    then role else chars "tech"
  let tmpls := templatesFor role_key
  let template := tmpls.getD (rng ri % tmpls.length) (fun _ => [])
  let a := tech_terms.getD (rng (ri + 1) % tech_terms.length) []
  let bPool := tech_terms.filter (· ≠ a)
  let b := bPool.getD (rng (ri + 2) % bPool.length) []
  let scenario := scenarios.getD (rng (ri + 3) % scenarios.length) []
  let nv := 2 + rng (ri + 4) % 19
  let mv := 5 + rng (ri + 5) % 96
  let text := trimStr (template ⟨a, b, scenario, nv, mv⟩)
  ⟨text, buildStubKeywords a b scenario, difficulty⟩

/-! ### qgen_groq.py: the generation pipeline -/

/-- State threaded through the collection loop of generate_questions_groq.
seen is the seen_sigs set (as a duplicate-free list), ci the number of
external calls made so far, log the ghost record of every prompt sent to
the client (used only to state properties of issued prompts). -/
structure LoopSt where
  collected : List QItem
  seen : List Str
  mathCount : Nat
  ci : Nat
  log : List Str

/-- The for-loop body over a parsed response: validate (which can raise
AttributeError, aborting generation), enrich, dedup by signature,
append, count math, stop once n items are collected. -/
def absorb (n : Nat) : List (Option RawObj) → List QItem × List Str × Nat →
    Except PyError (List QItem × List Str × Nat)
  | [], acc => Except.ok acc
  | o :: rest, (c, s, m) =>
    match validate_question_obj o with
    | Except.error e => Except.error e
    | Except.ok none => absorb n rest (c, s, m)
    | Except.ok (some v) =>
      if signature_of_text (ensure_math_has_number v).text ∈ s then
        absorb n rest (c, s, m)
      else if n ≤ (c ++ [ensure_math_has_number v]).length then
        Except.ok (c ++ [ensure_math_has_number v],
          s ++ [signature_of_text (ensure_math_has_number v).text],
          if (ensure_math_has_number v).type = QType.math then m + 1 else m)
      else
        absorb n rest (c ++ [ensure_math_has_number v],
          s ++ [signature_of_text (ensure_math_has_number v).text],
          if (ensure_math_has_number v).type = QType.math then m + 1 else m)

/-- The swap step: walk collected, skipping non-math items while the
removal budget lasts, keeping everything else. -/
def swapOut : Nat → List QItem → List QItem
  | _, [] => []
  | 0, l => l
  | r + 1, q :: t =>
    if q.type = QType.math then q :: swapOut (r + 1) t else swapOut r t

/-- One iteration of the bounded while-loop of generate_questions_groq,
with the remaining attempt budget as fuel.  A client failure breaks out
of the loop; a parse failure continues with the next attempt.  An
uncaught AttributeError from validation aborts generation: the error
result carries the ghost log of the prompts already sent (the real
exception carries no state; the log is the instrumented record of the
calls that were physically made before the crash). -/
def genLoop (client : Client) (role : Str) (difficulty : Int) (n mnt : Nat) :
    Nat → LoopSt → Except (List Str) LoopSt
  | 0, st => Except.ok st
  | fuel + 1, st =>
    if st.collected.length < n then
      let remaining := n - st.collected.length
      let math_for_this_call := min remaining (mnt - st.mathCount)
      let prompt := build_prompt (capitalizeStr role) remaining difficulty math_for_this_call
      let resp := client st.ci
      let st' := { st with ci := st.ci + 1, log := st.log ++ [prompt] }
      match resp with
      | ClientResp.fail => Except.ok st'
      | ClientResp.badParse => genLoop client role difficulty n mnt fuel st'
      | ClientResp.ok objs =>
        match absorb n objs (st'.collected, st'.seen, st'.mathCount) with
        | Except.error _ => Except.error st'.log
        | Except.ok t =>
          let t2 :=
            if n ≤ t.1.length ∧ t.2.2 < mnt then
              (swapOut (mnt - t.2.2) t.1,
               (swapOut (mnt - t.2.2) t.1).map (fun q => signature_of_text q.text),
               ((swapOut (mnt - t.2.2) t.1).filter (fun q => q.type = QType.math)).length)
            else t
          genLoop client role difficulty n mnt fuel
            { collected := t2.1, seen := t2.2.1, mathCount := t2.2.2,
              ci := st'.ci, log := st'.log }
    else Except.ok st

/-- State of enforce_role_allowed_types' replacement loop. -/
structure EnfSt where
  kept : List QItem
  rs : Nat
  ci : Nat
  log : List Str

/-- The for-loop body over a replacement response: validate, skip items
still violating the role policy, enrich, append, decrement the removed
count, stop when it reaches zero. -/
def absorbRepl (allowed : List QType) : List (Option RawObj) → List QItem → Nat →
    Except PyError (List QItem × Nat)
  | [], kept, rs => Except.ok (kept, rs)
  | o :: rest, kept, rs =>
    match validate_question_obj o with
    | Except.error e => Except.error e
    | Except.ok none => absorbRepl allowed rest kept rs
    | Except.ok (some v) =>
      if is_math_question v = true ∧ QType.math ∉ allowed then
        absorbRepl allowed rest kept rs
      else if rs - 1 = 0 then Except.ok (kept ++ [ensure_math_has_number v], rs - 1)
      else absorbRepl allowed rest (kept ++ [ensure_math_has_number v]) (rs - 1)

/-- The bounded replacement while-loop of enforce_role_allowed_types;
both a client failure and a parse failure break out of it.  An uncaught
AttributeError from validation aborts, carrying the ghost prompt log. -/
def enfLoop (client : Client) (role_key : Str) (difficulty : Int)
    (allowed : List QType) : Nat → EnfSt → Except (List Str) EnfSt
  | 0, st => Except.ok st
  | fuel + 1, st =>
    if st.rs = 0 then Except.ok st
    else
      let prompt := build_prompt (capitalizeStr role_key) st.rs difficulty 0
      let resp := client st.ci
      let st' := { st with ci := st.ci + 1, log := st.log ++ [prompt] }
      match resp with
      | ClientResp.fail => Except.ok st'
      | ClientResp.badParse => Except.ok st'
      | ClientResp.ok objs =>
        match absorbRepl allowed objs st'.kept st'.rs with
        | Except.error _ => Except.error st'.log
        | Except.ok kr =>
          enfLoop client role_key difficulty allowed fuel
            { st' with kept := kr.1, rs := kr.2 }

/-- qgen_groq.enforce_role_allowed_types: drop disallowed items, attempt
up to max(2, removed*3) targeted replacement calls, return at most n
items; a validation crash in a replacement response propagates. -/
def enforce_role_allowed_types (client : Client) (role_key : Str)
    (collected : List QItem) (n : Nat) (difficulty : Int) (ci : Nat)
    (log : List Str) : Except (List Str) EnfSt :=
  let allowed := role_allowed_types role_key
  let kept := collected.filter
    (fun q => !(is_math_question q && !(allowed.contains QType.math)))
  let rs := collected.length - kept.length
  match enfLoop client role_key difficulty allowed (max 2 (rs * 3))
    ⟨kept, rs, ci, log⟩ with
  | Except.error l => Except.error l
  | Except.ok st => Except.ok { st with kept := st.kept.take n }

/-- The stub backfill loop of generate_questions_groq.  DEV_FORCE_CREATE
defaults to False (env unset) and is modelled as such.  Each stub call
consumes 6 rng values.  seen_sigs is a set: adding a present element is
a no-op. -/
def backfill (role_key : Str) (difficulty : Int) (rng : Rng) :
    Nat → Nat → List Str → List QItem → List QItem × Nat
  | 0, ri, _, acc => (acc, ri)
  | miss + 1, ri, seen, acc =>
    let stub := generate_question_stub role_key difficulty rng ri
    let sig := signature_of_text stub.text
    let t := if sig ∈ seen then stub.text ++ chars " (variant)" else stub.text
    let sig' := if sig ∈ seen then signature_of_text t else sig
    let seen' := if sig' ∈ seen then seen else seen ++ [sig']
    let item : QItem :=
      ⟨trimStr t, stub.keywords, stub.difficulty,
       if is_math_question_textual t then QType.math else QType.reasoning⟩
    backfill role_key difficulty rng miss (ri + 6) seen' (acc ++ [item])

/-- Result of generate_questions_groq, with the ghost prompt log. -/
structure GenOut where
  items : List QItem
  log : List Str

/-- The math quota of generate_questions_groq:
max(0, int(round(n * math_ratio))).  The quantities are nonnegative, so
the max(0, _) is a no-op and the quota is computed in natural
arithmetic over the exact ratio n * num/20; the theorem on C8 relates
this to pyRound over ℚ. -/
def mathNeededTotal (n : Nat) (role_key : Str) : Nat :=
  pyRoundNat (n * roleMathRatioNum role_key) 20

/-- The collection phase of generate_questions_groq: resolve the role
key and math quota, then run the bounded collection loop from the empty
state. -/
def collectStage (role : Str) (n : Nat) (difficulty : Int) (client : Client) :
    Except (List Str) LoopSt :=
  genLoop client role difficulty n (mathNeededTotal n (normalize_role_key role))
    (max 3 (n * 3)) ⟨[], [], 0, 0, []⟩

/-- The enforcement phase of generate_questions_groq: truncate the
collected items to n and run enforce_role_allowed_types on them; a
crash in either phase propagates. -/
def enforceStage (role : Str) (n : Nat) (difficulty : Int) (client : Client) :
    Except (List Str) EnfSt :=
  match collectStage role n difficulty client with
  | Except.error l => Except.error l
  | Except.ok st =>
    enforce_role_allowed_types client (normalize_role_key role)
      (st.collected.take n) n difficulty st.ci st.log

/-- qgen_groq.generate_questions_groq: collect, enforce role policy,
backfill the shortfall with stubs, return the first n items.  An
uncaught AttributeError from a validated response aborts the whole
call: the error result stands for the raised exception (carrying the
ghost log of prompts sent before the crash). -/
def generate_questions_groq (role : Str) (n : Nat) (difficulty : Int)
    (client : Client) (rng : Rng) : Except (List Str) GenOut :=
  match collectStage role n difficulty client with
  | Except.error l => Except.error l
  | Except.ok st =>
    match enforce_role_allowed_types client (normalize_role_key role)
      (st.collected.take n) n difficulty st.ci st.log with
    | Except.error l => Except.error l
    | Except.ok enf =>
      let final := enf.kept
      let final :=
        if final.length < n then
          (backfill (normalize_role_key role) difficulty rng (n - final.length) 0
            st.seen final).1
        else final
      Except.ok ⟨final.take n, enf.log⟩

/-- Ghost prompt log of a collection-loop outcome (the prompts sent,
whether or not the loop completed). -/
def loopResLog : Except (List Str) LoopSt → List Str
  | Except.error l => l
  | Except.ok st => st.log

/-- Ghost prompt log of an enforcement outcome. -/
def enfResLog : Except (List Str) EnfSt → List Str
  | Except.error l => l
  | Except.ok st => st.log

/-- Ghost prompt log of a generation outcome. -/
def genResLog : Except (List Str) GenOut → List Str
  | Except.error l => l
  | Except.ok out => out.log

/-- Items of a generation outcome: the returned list on normal return,
nothing when generation raised. -/
def genResItems : Except (List Str) GenOut → List QItem
  | Except.error _ => []
  | Except.ok out => out.items

/-! ### qgen_groq.py: session suggestions -/

/-- A JSON value as it can reach a field of the suggestions result:
null, a list of strings, or a string.  Other JSON types would be carried
through just as opaquely; these constructors cover the behaviours the
claims are about. -/
inductive JVal
  | null
  | list (xs : List Str)
  | str (s : Str)
deriving DecidableEq

/-- The parsed suggestions object: each field is some v when the key is
present with value v, none when absent (dict .get default applies). -/
structure SugObj where
  strengths : Option JVal
  improvements : Option JVal
  overall_tip : Option JVal
  resources : Option JVal

/-- Outcome of the single suggestions call: fail covers a client
exception, a response with no JSON object span, and invalid JSON (all
land in the same except branch); ok carries the parsed object. -/
inductive SugResp
  | fail
  | ok (o : SugObj)

/-- One answer record passed to generate_session_suggestions. -/
structure AnsRec where
  question_text : Str
  answer_text : Str
  score : Int
  feedback : Str

/-- The suggestions result dict. -/
structure SessionInsights where
  strengths : JVal
  improvements : JVal
  overall_tip : JVal
  resources : JVal
deriving DecidableEq

/-- Stable descending insertion by score: models Python
sorted(key=score, reverse=True), which keeps the original order of
equal-score records. -/
def insDescByScore (a : AnsRec) : List AnsRec → List AnsRec
  | [] => [a]
  | b :: t => if a.score < b.score then b :: insDescByScore a t else a :: b :: t

/-- Stable descending sort by score. -/
def sortDescByScore : List AnsRec → List AnsRec
  | [] => []
  | a :: t => insDescByScore a (sortDescByScore t)

/-- Stable ascending insertion by score: models Python
sorted(key=score). -/
def insAscByScore (a : AnsRec) : List AnsRec → List AnsRec
  | [] => [a]
  | b :: t => if b.score < a.score then b :: insAscByScore a t else a :: b :: t

/-- Stable ascending sort by score. -/
def sortAscByScore : List AnsRec → List AnsRec
  | [] => []
  | a :: t => insAscByScore a (sortAscByScore t)

/-- qgen_groq.generate_session_suggestions.  The prompt it builds (the
truncated Q/A items serialized to JSON) is consumed only by the external
client, which the model abstracts as the single-call outcome resp; the
prompt text affects no field of the result.  On success each result
field is parsed.get(key, default); on any failure the local heuristic
fallback is returned. -/
def generate_session_suggestions (answers : List AnsRec) (resp : SugResp) :
    SessionInsights :=
  match resp with
  | SugResp.ok parsed =>
    ⟨parsed.strengths.getD (JVal.list []),
     parsed.improvements.getD (JVal.list []),
     parsed.overall_tip.getD (JVal.str []),
     parsed.resources.getD (JVal.list [])⟩
  | SugResp.fail =>
    ⟨JVal.list (((sortDescByScore answers).take 3).map
        (fun a => a.question_text.take 120)),
     JVal.list (((sortAscByScore answers).take 5).map
        (fun a => a.question_text.take 120)),
     JVal.str (chars "Practice weaker areas identified above; do timed mock interviews and focus on concise structure."),
     JVal.list [chars "LeetCode", chars "Cracking the Coding Interview",
        chars "Grokking the System Design Interview"]⟩

/-! ### Concrete inputs used by witnesses and counterexamples -/

/-- A client whose every call fails. -/
def failClient : Client := fun _ => ClientResp.fail

/-- A random oracle that always draws 0. -/
def zeroRng : Rng := fun _ => 0

/-- A well-formed reasoning item returned by the adversarial client. -/
def rawReasoning : Option RawObj :=
  some ⟨some (chars "Why do you want this role"), KwField.scalar (chars "x"),
    some 3, TypeField.str (chars "reasoning")⟩

/-- A well-formed math item returned by the adversarial client. -/
def rawMath : Option RawObj :=
  some ⟨some (chars "Compute 2 plus 2"), KwField.scalar (chars "y"),
    some 3, TypeField.str (chars "math")⟩

/-- A parsed item whose "type" key holds a truthy non-string value
(e.g. the JSON number 1), on which the validator raises. -/
def crashRaw : Option RawObj :=
  some ⟨some (chars "x"), KwField.scalar [], some 3, TypeField.truthyNonStr⟩

/-- A client whose first response parses to a single crash-inducing
item. -/
def crashClient : Client := fun _ => ClientResp.ok [crashRaw]

/-- A client that first delivers a reasoning and a math item, then, on
the replacement call, the same reasoning item again. -/
def dupClient : Client := fun k =>
  if k = 0 then ClientResp.ok [rawReasoning, rawMath]
  else if k = 1 then ClientResp.ok [rawReasoning]
  else ClientResp.fail

/-- A 30-word filler-free answer text. -/
def text30 : Str :=
  chars "aa bb cc dd ee ff gg hh ii jj kk ll mm nn oo pp qq rr ss tt uu vv ww xx yy zz ab cd ef gh"

/-- A six-keyword list of which exactly one keyword (aa) occurs in
text30. -/
def kw6 : Str := chars "aa,qz,wz,ez,rz,tz"

/-- A digit-free math item whose text is so long that the 1000-character
cap truncates the appended numeric example away entirely. -/
def longMathItem : QItem := ⟨List.replicate 1000 'a', [], 3, QType.math⟩

/-- A short digit-free math item. -/
def shortMathItem : QItem := ⟨chars "abc", [], 3, QType.math⟩

/-! ### Theorems: the answer scorer -/

/-- The executable natural rounding agrees with Python round over exact
rationals. -/
theorem pyRoundNat_eq_pyRound (a b : ℕ) (hb : 0 < b) :
    (pyRoundNat a b : ℤ) = pyRound ((a : ℚ) / (b : ℚ)) := by
  have hbQ : (0 : ℚ) < (b : ℚ) := by exact_mod_cast hb
  have hbne : (b : ℚ) ≠ 0 := ne_of_gt hbQ
  have hfloor : ⌊(a : ℚ) / (b : ℚ)⌋ = ((a / b : ℕ) : ℤ) := by
    rw [Int.floor_eq_iff]
    constructor
    · rw [le_div_iff hbQ]
      have h1 : (a / b) * b ≤ a := Nat.div_mul_le_self a b
      exact_mod_cast h1
    · rw [div_lt_iff hbQ]
      have h2 : a < (a / b + 1) * b := by
        have h3 := Nat.div_add_mod a b
        have h4 := Nat.mod_lt a hb
        nlinarith
      exact_mod_cast h2
  have hfrac : (a : ℚ) / (b : ℚ) - (((a / b : ℕ) : ℤ) : ℚ) =
      ((a % b : ℕ) : ℚ) / (b : ℚ) := by
    have hdm : (b * (a / b) + a % b : ℕ) = a := Nat.div_add_mod a b
    have hdmQ : ((b : ℚ) * ((a / b : ℕ) : ℚ) + ((a % b : ℕ) : ℚ)) = (a : ℚ) := by
      exact_mod_cast hdm
    rw [eq_div_iff hbne, sub_mul, div_mul_cancel₀ _ hbne,
      (Int.cast_natCast (a / b) : (((a / b : ℕ) : ℤ) : ℚ) = _)]
    linarith
  have hhalf1 : ((a % b : ℕ) : ℚ) / (b : ℚ) < 1 / 2 ↔ 2 * (a % b) < b := by
    rw [div_lt_div_iff hbQ (by norm_num : (0 : ℚ) < 2), one_mul, mul_comm]
    exact_mod_cast Iff.rfl
  have hhalf2 : (1 : ℚ) / 2 < ((a % b : ℕ) : ℚ) / (b : ℚ) ↔ b < 2 * (a % b) := by
    rw [div_lt_div_iff (by norm_num : (0 : ℚ) < 2) hbQ, one_mul, mul_comm]
    exact_mod_cast Iff.rfl
  have hmod : ((a / b : ℕ) : ℤ) % 2 = 0 ↔ (a / b) % 2 = 0 := by omega
  unfold pyRound pyRoundNat
  rw [hfloor, hfrac]
  by_cases h1 : 2 * (a % b) < b
  · rw [if_pos (hhalf1.mpr h1), if_pos h1]
  · rw [if_neg (fun hh => h1 (hhalf1.mp hh)), if_neg h1]
    by_cases h2 : b < 2 * (a % b)
    · rw [if_pos (hhalf2.mpr h2), if_pos h2]
      push_cast
      ring
    · rw [if_neg (fun hh => h2 (hhalf2.mp hh)), if_neg h2]
      by_cases h3 : (a / b) % 2 = 0
      · rw [if_pos (hmod.mpr h3), if_pos h3]
      · rw [if_neg (fun hh => h3 (hmod.mp hh)), if_neg h3]
        push_cast
        ring

/-- Characterization of the non-empty-answer score: the integer scoring
formula of analyze_transcript, with the keyword score as floor division
(Python int() truncation). -/
theorem analyze_score_spec (text : Str) (question : Option Question)
    (ai : Option (List Str)) (h : text ≠ []) :
    (analyze_transcript text question ai).score =
      max 0
        ((if keywordListOf question ≠ [] then
            (((40 * (keywordListOf question).countP
                (fun k => containsSub (lowerStr text) k)) /
              max 1 (keywordListOf question).length : Nat) : Int)
          else 20) +
         min 20 (max 5 ((pyWords text).length : Int)) +
         (25 - min 10 ((fillerCountOf text : Int) * 2)) -
         min 15 ((fillerCountOf text : Int) * 3)) := by
  unfold analyze_transcript
  rw [if_neg h]

/-- C4 (confirmed): evaluating the empty answer text against any
question (present or absent) and any AI-tips outcome returns exactly
score 0, the fixed feedback string, and the three fixed fallback tips;
no analysis or AI call influences the result (the result is independent
of the question and of the tips oracle). -/
theorem C4_empty_answer_short_circuits (question : Option Question)
    (ai : Option (List Str)) :
    analyze_transcript [] question ai =
      ⟨0, chars "You did not provide an answer to this question.",
       [chars "Answer the question in your own words",
        chars "Explain the main idea clearly",
        chars "Add an example to support your explanation"]⟩ := rfl

/-- C5 (confirmed): for every answer text, every question (including an
absent one or one with zero keywords) and every AI-tips outcome, the
score is an integer in [0, 100]. -/
theorem C5_score_in_unit_range (text : Str) (question : Option Question)
    (ai : Option (List Str)) :
    0 ≤ (analyze_transcript text question ai).score ∧
    (analyze_transcript text question ai).score ≤ 100 := by
  by_cases h : text = []
  · subst h
    have h0 : (analyze_transcript [] question ai).score = 0 := rfl
    rw [h0]
    exact ⟨le_refl 0, by norm_num⟩
  · rw [analyze_score_spec text question ai h]
    have hm_le : (keywordListOf question).countP
        (fun k => containsSub (lowerStr text) k) ≤ (keywordListOf question).length :=
      List.countP_le_length _
    have hkpos : 0 < max 1 (keywordListOf question).length :=
      Nat.lt_of_lt_of_le Nat.zero_lt_one (le_max_left 1 _)
    have hkwS : (if keywordListOf question ≠ [] then
        (((40 * (keywordListOf question).countP
            (fun k => containsSub (lowerStr text) k)) /
          max 1 (keywordListOf question).length : Nat) : Int)
        else 20) ≤ 40 := by
      split
      · have h1 : (40 * (keywordListOf question).countP
            (fun k => containsSub (lowerStr text) k)) /
            max 1 (keywordListOf question).length ≤ 40 := by
          have h2 : 40 * (keywordListOf question).countP
              (fun k => containsSub (lowerStr text) k) ≤
              40 * max 1 (keywordListOf question).length :=
            Nat.mul_le_mul_left 40 (hm_le.trans (le_max_right 1 _))
          calc (40 * (keywordListOf question).countP
                (fun k => containsSub (lowerStr text) k)) /
                max 1 (keywordListOf question).length
              ≤ 40 * max 1 (keywordListOf question).length /
                max 1 (keywordListOf question).length := Nat.div_le_div_right h2
            _ = 40 := by
                rw [Nat.mul_div_assoc 40 (dvd_refl _), Nat.div_self hkpos, mul_one]
        exact_mod_cast h1
      · norm_num
    have hlen : min 20 (max 5 ((pyWords text).length : Int)) ≤ 20 := min_le_left _ _
    have hg : 25 - min 10 ((fillerCountOf text : Int) * 2) ≤ 25 := by
      have h0 : (0 : Int) ≤ min 10 ((fillerCountOf text : Int) * 2) :=
        le_min (by norm_num) (by positivity)
      linarith
    have hp : (0 : Int) ≤ min 15 ((fillerCountOf text : Int) * 3) :=
      le_min (by norm_num) (by positivity)
    refine ⟨le_max_left 0 _, max_le (by norm_num) ?_⟩
    linarith

/-- C9 (code_bug): FILLERS contains the two-word phrase "you know", but
the filler count matches single spaCy tokens against the set, so an
answer containing "you know" (and no other filler) still counts zero
fillers — the phrase entry is dead.  Evaluated at the failing input
"you know the answer": the phrase is in the set and occurs in the text,
yet the filler count is 0 and the score shows no filler penalty. -/
theorem C9_two_word_filler_never_counted :
    chars "you know" ∈ FILLERS ∧
    containsSub (lowerStr (chars "you know the answer")) (chars "you know") = true ∧
    fillerCountOf (chars "you know the answer") = 0 ∧
    (analyze_transcript (chars "you know the answer") none none).score = 50 := by
  refine ⟨?_, ?_, ?_, ?_⟩ <;> decide

/-- C2 (counterexample): with 6 keywords of which exactly 1 matches, a
30-word filler-free answer scores 51 = floor(40/6) + 20 + 25, whereas
the claimed round(matched/len*40) keyword score is round(40/6) = 7 and
would give 52 — the claim's formula disagrees with the code. -/
theorem C2_counterexample :
    (analyze_transcript text30 (some ⟨chars "q", kw6⟩) none).score = 51 ∧
    (keywordListOf (some ⟨chars "q", kw6⟩)).length = 6 ∧
    (keywordListOf (some ⟨chars "q", kw6⟩)).countP
      (fun k => containsSub (lowerStr text30) k) = 1 ∧
    pyRound (1 / 6 * 40) = 7 ∧
    (51 : ℤ) ≠ max 0 (7 + 20 + 25 - 0) := by
  refine ⟨by decide, by decide, by decide, ?_, by decide⟩
  have hq : (1 / 6 * 40 : ℚ) = ((40 : ℕ) : ℚ) / ((6 : ℕ) : ℚ) := by norm_num
  rw [hq, ← pyRoundNat_eq_pyRound 40 6 (by norm_num)]
  decide

/-- C2 (amended): for every non-empty answer text and question, the
score is max(0, keyword_score + length_score + grammar_score -
filler_penalty) with keyword_score = floor(matched/len(keywords) * 40)
(Python int() truncation, not round) when the keyword list is non-empty
and flat 20 otherwise, length_score = clamp(word_count, 5, 20),
grammar_score = 25 - min(10, filler_count*2), filler_penalty = min(15,
filler_count*3); and a 30-word answer with 0 fillers matching both
keywords of "a,b" scores exactly 85. -/
theorem C2_amended_scoring_formula (text : Str) (question : Option Question)
    (ai : Option (List Str)) (h : text ≠ []) :
    ((analyze_transcript text question ai).score =
      max 0
        ((if keywordListOf question ≠ [] then
            (((40 * (keywordListOf question).countP
                (fun k => containsSub (lowerStr text) k)) /
              max 1 (keywordListOf question).length : Nat) : Int)
          else 20) +
         min 20 (max 5 ((pyWords text).length : Int)) +
         (25 - min 10 ((fillerCountOf text : Int) * 2)) -
         min 15 ((fillerCountOf text : Int) * 3))) ∧
    (analyze_transcript text30 (some ⟨chars "q", chars "a,b"⟩) none).score = 85 :=
  ⟨analyze_score_spec text question ai h, by decide⟩

/-- Witness for C2_amended_scoring_formula at the concrete 30-word
answer with an absent question. -/
theorem C2_amended_scoring_formula_witness :
    text30 ≠ [] ∧
    (((analyze_transcript text30 none none).score =
      max 0
        ((if keywordListOf none ≠ [] then
            (((40 * (keywordListOf none).countP
                (fun k => containsSub (lowerStr text30) k)) /
              max 1 (keywordListOf none).length : Nat) : Int)
          else 20) +
         min 20 (max 5 ((pyWords text30).length : Int)) +
         (25 - min 10 ((fillerCountOf text30 : Int) * 2)) -
         min 15 ((fillerCountOf text30 : Int) * 3))) ∧
    (analyze_transcript text30 (some ⟨chars "q", chars "a,b"⟩) none).score = 85) :=
  ⟨by decide, C2_amended_scoring_formula text30 none none (by decide)⟩

/-! ### Theorems: math enrichment (C6) -/

/-- Stripping yields a sublist of the original characters. -/
theorem trimStr_sublist (s : Str) : List.Sublist (trimStr s) s := by
  unfold trimStr
  have h1 : List.Sublist (s.dropWhile Char.isWhitespace) s :=
    (List.dropWhile_suffix Char.isWhitespace).sublist
  have h2 : List.Sublist
      ((s.dropWhile Char.isWhitespace).reverse.dropWhile Char.isWhitespace)
      (s.dropWhile Char.isWhitespace).reverse :=
    (List.dropWhile_suffix Char.isWhitespace).sublist
  have h3 := h2.reverse
  rw [List.reverse_reverse] at h3
  exact h3.trans h1

/-- A digit-free text stays digit-free on any sublist. -/
theorem hasNumericMatch_false_mono {s t : Str} (hsub : List.Sublist s t)
    (ht : hasNumericMatch t = false) : hasNumericMatch s = false := by
  by_contra hs
  rw [Bool.not_eq_false] at hs
  obtain ⟨c, hc, hdig⟩ := List.any_eq_true.mp hs
  have hT : hasNumericMatch t = true := List.any_eq_true.mpr ⟨c, hsub.subset hc, hdig⟩
  rw [hT] at ht
  exact Bool.noConfusion ht

/-- splitComma never produces the empty list of pieces. -/
theorem splitComma_ne_nil (s : Str) : splitComma s ≠ [] := by
  match s with
  | [] => simp [splitComma]
  | c :: t =>
    unfold splitComma
    split
    · simp
    · have := splitComma_ne_nil t
      cases h : splitComma t with
      | nil => exact absurd h this
      | cons a l => simp [List.modifyHead]

/-- Splitting distributes over a comma that joins two pieces. -/
theorem splitComma_append_comma (x y : Str) :
    splitComma (x ++ ',' :: y) = splitComma x ++ splitComma y := by
  induction x with
  | nil =>
    show splitComma (',' :: y) = [[]] ++ splitComma y
    rw [splitComma, if_pos rfl]
    rfl
  | cons c t ih =>
    show splitComma (c :: (t ++ ',' :: y)) = splitComma (c :: t) ++ splitComma y
    by_cases hc : c = ','
    · subst hc
      rw [splitComma, if_pos rfl, ih, splitComma, if_pos rfl]
      rfl
    · rw [splitComma, if_neg hc, ih, splitComma, if_neg hc]
      cases h : splitComma t with
      | nil => exact absurd h (splitComma_ne_nil t)
      | cons a l => simp [List.modifyHead, h]

/-- Digit-free replicated letters. -/
theorem hasNumericMatch_replicate_a (n : ℕ) :
    hasNumericMatch (List.replicate n 'a') = false := by
  induction n with
  | zero => rfl
  | succ k ih =>
    simp only [hasNumericMatch, List.replicate_succ, List.any_cons] at *
    rw [ih]
    decide

/-- Stripping replicated letters is the identity. -/
theorem trimStr_replicate_a (n : ℕ) :
    trimStr (List.replicate n 'a') = List.replicate n 'a' := by
  have hdrop : ∀ m, (List.replicate m 'a').dropWhile Char.isWhitespace =
      List.replicate m 'a' := by
    intro m
    cases m with
    | zero => rfl
    | succ k => simp [List.replicate_succ, List.dropWhile_cons]
  unfold trimStr
  rw [hdrop, List.reverse_replicate, hdrop, List.reverse_replicate]

set_option maxRecDepth 4096

/-- C6 (counterexample): a validated math item whose digit-free text is
1000 characters long is "enriched" into a text that still contains no
numeral, because the appended numeric example is truncated away by the
1000-character cap. -/
theorem C6_counterexample :
    longMathItem.type = QType.math ∧
    hasNumericMatch longMathItem.text = false ∧
    hasNumericMatch (ensure_math_has_number longMathItem).text = false := by
  refine ⟨rfl, hasNumericMatch_replicate_a 1000, ?_⟩
  have htrim : trimStr longMathItem.text = List.replicate 1000 'a' :=
    trimStr_replicate_a 1000
  have hcond : longMathItem.type = QType.math ∧
      hasNumericMatch (trimStr longMathItem.text) = false := by
    rw [htrim]
    exact ⟨rfl, hasNumericMatch_replicate_a 1000⟩
  have hens : ensure_math_has_number longMathItem = { longMathItem with
      text := (trimStr longMathItem.text ++ enrichExample).take 1000,
      keywords := if longMathItem.keywords ≠ [] then
          longMathItem.keywords ++ chars ",numbers"
        else chars "numbers" } := by
    unfold ensure_math_has_number
    rw [if_pos hcond]
  rw [hens]
  show hasNumericMatch ((trimStr longMathItem.text ++ enrichExample).take 1000) = false
  rw [htrim]
  rw [List.take_left' (List.length_replicate 1000 'a')]
  exact hasNumericMatch_replicate_a 1000

/-- C6 (amended): for every validated math item whose text contains no
digits, enrichment always makes "numbers" one of the comma-separated
keywords; and whenever the text has at most 982 characters (so that the
digits of the appended example survive the 1000-character cap), the
final text contains at least one numeral.  For longer texts the cap can
truncate every digit away (see the counterexample). -/
theorem C6_amended_enrichment (q : QItem) (hm : q.type = QType.math)
    (hd : hasNumericMatch q.text = false) :
    chars "numbers" ∈ splitComma (ensure_math_has_number q).keywords ∧
    (q.text.length ≤ 982 → hasNumericMatch (ensure_math_has_number q).text = true) := by
  have htrim : hasNumericMatch (trimStr q.text) = false :=
    hasNumericMatch_false_mono (trimStr_sublist q.text) hd
  have hens : ensure_math_has_number q = { q with
      text := (trimStr q.text ++ enrichExample).take 1000,
      keywords := if q.keywords ≠ [] then q.keywords ++ chars ",numbers"
        else chars "numbers" } := by
    unfold ensure_math_has_number
    rw [if_pos ⟨hm, htrim⟩]
  rw [hens]
  constructor
  · simp only
    split
    · rw [show chars ",numbers" = ',' :: chars "numbers" from rfl,
        splitComma_append_comma]
      refine List.mem_append_right _ ?_
      decide
    · decide
  · intro hlen
    have hlen' : (trimStr q.text).length ≤ 982 :=
      ((trimStr_sublist q.text).length_le).trans hlen
    simp only
    rw [List.take_append_eq_append_take]
    have h1mem : '1' ∈ enrichExample.take (1000 - (trimStr q.text).length) := by
      have h18 : '1' ∈ enrichExample.take 18 := by decide
      have heq : enrichExample.take 18 =
          (enrichExample.take (1000 - (trimStr q.text).length)).take 18 := by
        rw [List.take_take]
        congr 1
        omega
      rw [heq] at h18
      exact List.take_subset 18 _ h18
    show ((trimStr q.text).take 1000 ++
      enrichExample.take (1000 - (trimStr q.text).length)).any Char.isDigit = true
    rw [List.any_append]
    refine Bool.or_eq_true_iff.mpr (Or.inr ?_)
    exact List.any_eq_true.mpr ⟨'1', h1mem, by decide⟩

/-- Witness for C6_amended_enrichment at a short digit-free math item. -/
theorem C6_amended_enrichment_witness :
    shortMathItem.type = QType.math ∧
    hasNumericMatch shortMathItem.text = false ∧
    chars "numbers" ∈ splitComma (ensure_math_has_number shortMathItem).keywords ∧
    hasNumericMatch (ensure_math_has_number shortMathItem).text = true :=
  ⟨rfl, by decide,
   (C6_amended_enrichment shortMathItem rfl (by decide)).1,
   (C6_amended_enrichment shortMathItem rfl (by decide)).2 (by decide)⟩

/-! ### Theorems: session suggestions (C7) -/

/-- C7 (counterexample): a well-formed client response whose strengths
key holds JSON null is propagated verbatim: the result's strengths field
is null, not a populated value. -/
theorem C7_counterexample :
    (generate_session_suggestions []
      (SugResp.ok ⟨some JVal.null, none, none, none⟩)).strengths = JVal.null := rfl

/-- C7 (amended): the result always carries all four keys; on every
client failure / unparsable response the heuristic fallback populates
all four with non-null values — at most 3 strengths, at most 5
improvements, the fixed overall tip and the fixed 3 resources.  A
successful parse, however, copies the parsed object's values verbatim,
so an explicit JSON null in the response is propagated. -/
theorem C7_amended_fallback_populated (answers : List AnsRec) :
    (∃ xs, (generate_session_suggestions answers SugResp.fail).strengths =
        JVal.list xs ∧ xs.length ≤ 3) ∧
    (∃ xs, (generate_session_suggestions answers SugResp.fail).improvements =
        JVal.list xs ∧ xs.length ≤ 5) ∧
    (generate_session_suggestions answers SugResp.fail).overall_tip =
      JVal.str (chars "Practice weaker areas identified above; do timed mock interviews and focus on concise structure.") ∧
    (generate_session_suggestions answers SugResp.fail).resources =
      JVal.list [chars "LeetCode", chars "Cracking the Coding Interview",
        chars "Grokking the System Design Interview"] := by
  refine ⟨⟨_, rfl, ?_⟩, ⟨_, rfl, ?_⟩, rfl, rfl⟩
  · rw [List.length_map]
    exact (List.length_take_le 3 _).trans (le_refl 3)
  · rw [List.length_map]
    exact (List.length_take_le 5 _).trans (le_refl 5)


/-! ### Theorems: the generation pipeline -/

/-- Backfill appends exactly the requested number of stub items. -/
theorem backfill_length (rk : Str) (d : Int) (rng : Rng) :
    ∀ (miss ri : Nat) (seen : List Str) (acc : List QItem),
      ((backfill rk d rng miss ri seen acc).1).length = acc.length + miss := by
  intro miss
  induction miss with
  | zero => intro ri seen acc; simp [backfill]
  | succ m ih =>
    intro ri seen acc
    rw [backfill]
    rw [ih]
    simp
    omega

/-- A normal enforcement outcome carries at most n items. -/
theorem enforce_ok_kept_le (client : Client) (rk : Str) (collected : List QItem)
    (n : Nat) (d : Int) (ci : Nat) (log : List Str) (enf : EnfSt)
    (h : enforce_role_allowed_types client rk collected n d ci log = Except.ok enf) :
    enf.kept.length ≤ n := by
  simp only [enforce_role_allowed_types] at h
  split at h
  · exact Except.noConfusion h
  · injection h with h2
    rw [← h2]
    exact List.length_take_le n _

/-- Whenever generate_questions_groq returns normally it returns exactly
n items: enforcement yields at most n and backfill appends exactly the
shortfall. -/
theorem generate_ok_length (role : Str) (n : Nat) (d : Int) (client : Client)
    (rng : Rng) (out : GenOut)
    (h : generate_questions_groq role n d client rng = Except.ok out) :
    out.items.length = n := by
  unfold generate_questions_groq at h
  split at h
  · exact Except.noConfusion h
  · rename_i st hst
    split at h
    · exact Except.noConfusion h
    · rename_i enf henf
      have hle := enforce_ok_kept_le client (normalize_role_key role)
        (st.collected.take n) n d st.ci st.log enf henf
      injection h with h2
      rw [← h2]
      simp only [List.length_take]
      by_cases hlen : enf.kept.length < n
      · rw [if_pos hlen, backfill_length]
        omega
      · rw [if_neg hlen]
        omega

/-- C10 (counterexample): generation is not total over every client
behaviour.  A parsed item whose "type" key holds a truthy non-string
value makes the validator raise an uncaught AttributeError, so generate
raises and returns nothing — fewer than the n = 1 requested items. -/
theorem C10_counterexample :
    (1 : ℕ) ≤ 1 ∧
    (generate_questions_groq (chars "hr") 1 3 crashClient zeroRng).isOk = false ∧
    genResItems (generate_questions_groq (chars "hr") 1 3 crashClient zeroRng) = [] :=
  ⟨le_refl 1, by decide, by decide⟩

/-- C10 (amended): for every role, count n ≥ 1 and difficulty, and for
every behaviour of the client and of the random source on which
generation does not raise, generate returns exactly n items — never
fewer and never empty — because the stub backfill appends exactly the
shortfall and the stub generator is total.  Generation does raise (and
then returns nothing) when a parsed item's "type" key holds a truthy
non-string value, on which validation hits an uncaught
AttributeError. -/
theorem C10_ok_exactly_n (role : Str) (n : Nat) (d : Int) (client : Client)
    (rng : Rng) (h1 : 1 ≤ n)
    (h2 : (generate_questions_groq role n d client rng).isOk = true) :
    (genResItems (generate_questions_groq role n d client rng)).length = n ∧
    genResItems (generate_questions_groq role n d client rng) ≠ [] := by
  cases hg : generate_questions_groq role n d client rng with
  | error l =>
    rw [hg] at h2
    simp [Except.isOk, Except.toBool] at h2
  | ok out =>
    have hlen := generate_ok_length role n d client rng out hg
    constructor
    · exact hlen
    · show out.items ≠ []
      intro hnil
      rw [hnil] at hlen
      simp at hlen
      omega

/-- Witness for C10_ok_exactly_n with one requested question and an
always-failing client (which lets generation complete via stubs). -/
theorem C10_ok_exactly_n_witness :
    1 ≤ 1 ∧
    (generate_questions_groq (chars "hr") 1 3 failClient zeroRng).isOk = true ∧
    ((genResItems (generate_questions_groq (chars "hr") 1 3 failClient zeroRng)).length = 1 ∧
     genResItems (generate_questions_groq (chars "hr") 1 3 failClient zeroRng) ≠ []) :=
  ⟨le_refl 1, by decide,
   C10_ok_exactly_n (chars "hr") 1 3 failClient zeroRng (le_refl 1) (by decide)⟩

/-- With zero removals the replacement loop exits immediately. -/
theorem enfLoop_rs_zero (client : Client) (rk : Str) (d : Int)
    (allowed : List QType) :
    ∀ fuel st, st.rs = 0 → enfLoop client rk d allowed fuel st = Except.ok st := by
  intro fuel
  cases fuel with
  | zero => intro st h; rw [enfLoop]
  | succ f => intro st h; rw [enfLoop, if_pos h]

/-- Enforcing the role policy on an empty collection makes no client
call and returns the empty collection. -/
theorem enforce_nil (client : Client) (rk : Str) (n : Nat) (d : Int)
    (ci : Nat) (log : List Str) :
    enforce_role_allowed_types client rk [] n d ci log =
      Except.ok ⟨[], 0, ci, log⟩ := by
  simp only [enforce_role_allowed_types, List.filter_nil, List.length_nil,
    Nat.sub_self]
  rw [enfLoop_rs_zero client rk d (role_allowed_types rk) (max 2 (0 * 3))
    ⟨[], 0, ci, log⟩ rfl]
  simp

/-- When every client call fails, the collection loop stops on its
first attempt with nothing collected. -/
theorem collectStage_fail (role : Str) (n : Nat) (d : Int) (client : Client)
    (h : ∀ k, client k = ClientResp.fail) :
    ∃ st, collectStage role n d client = Except.ok st ∧
      st.collected = [] ∧ st.seen = [] := by
  unfold collectStage
  obtain ⟨f, hf⟩ : ∃ f, max 3 (n * 3) = f + 1 := ⟨max 3 (n * 3) - 1, by omega⟩
  rw [hf, genLoop]
  simp only [h]
  split
  · exact ⟨_, rfl, rfl, rfl⟩
  · exact ⟨_, rfl, rfl, rfl⟩

/-- Every item the backfill loop adds is a trimmed stub text whose type
is the textual math inference over that text. -/
theorem backfill_shape (rk : Str) (d : Int) (rng : Rng) :
    ∀ (miss ri : Nat) (seen : List Str) (acc : List QItem),
      (∀ q ∈ acc, ∃ t, q.text = trimStr t ∧
        q.type = (if is_math_question_textual t then QType.math else QType.reasoning)) →
      ∀ q ∈ (backfill rk d rng miss ri seen acc).1,
        ∃ t, q.text = trimStr t ∧
          q.type = (if is_math_question_textual t then QType.math else QType.reasoning) := by
  intro miss
  induction miss with
  | zero => intro ri seen acc hacc; rw [backfill]; exact hacc
  | succ m ih =>
    intro ri seen acc hacc
    rw [backfill]
    apply ih
    intro q hq
    rcases List.mem_append.1 hq with hq | hq
    · exact hacc q hq
    · rcases List.mem_singleton.1 hq with rfl
      exact ⟨(if signature_of_text (generate_question_stub rk d rng ri).text ∈ seen
          then (generate_question_stub rk d rng ri).text ++ chars " (variant)"
          else (generate_question_stub rk d rng ri).text), rfl, rfl⟩

/-- C3: when every Groq call raises, generation still completes: the
collection loop breaks on the first attempt, enforcement makes no call,
and the result is exactly the n-item stub backfill (run from an empty
seen-signature set), each item a trimmed stub text typed by the textual
math inference. -/
theorem C3_all_fail_gives_stubs (role : Str) (n : Nat) (d : Int)
    (client : Client) (rng : Rng) (h : ∀ k, client k = ClientResp.fail) :
    (generate_questions_groq role n d client rng).isOk = true ∧
    genResItems (generate_questions_groq role n d client rng) =
      (backfill (normalize_role_key role) d rng n 0 [] []).1 ∧
    (genResItems (generate_questions_groq role n d client rng)).length = n ∧
    ∀ q ∈ genResItems (generate_questions_groq role n d client rng),
      ∃ t, q.text = trimStr t ∧
        q.type = (if is_math_question_textual t then QType.math else QType.reasoning) := by
  obtain ⟨st, hc, h1, h2⟩ := collectStage_fail role n d client h
  have hen : enforce_role_allowed_types client (normalize_role_key role)
      (st.collected.take n) n d st.ci st.log =
      Except.ok ⟨[], 0, st.ci, st.log⟩ := by
    rw [h1, List.take_nil]
    exact enforce_nil client (normalize_role_key role) n d st.ci st.log
  have hgen : generate_questions_groq role n d client rng =
      Except.ok ⟨(backfill (normalize_role_key role) d rng n 0 [] []).1, st.log⟩ := by
    unfold generate_questions_groq
    simp only [hc, hen, h2, List.length_nil, Nat.sub_zero]
    by_cases hn : 0 < n
    · rw [if_pos hn, List.take_of_length_le (by rw [backfill_length]; simp)]
    · rw [if_neg hn]
      have hn0 : n = 0 := by omega
      subst hn0
      simp [backfill]
  refine ⟨?_, ?_, ?_, ?_⟩
  · rw [hgen]; rfl
  · rw [hgen]; rfl
  · rw [hgen]
    show ((backfill (normalize_role_key role) d rng n 0 [] []).1).length = n
    rw [backfill_length]
    simp
  · rw [hgen]
    exact backfill_shape (normalize_role_key role) d rng n 0 [] []
      (by intro q hq; exact absurd hq (List.not_mem_nil q))

/-- Witness for C3_all_fail_gives_stubs: the hr role with one requested
question and the always-failing client. -/
theorem C3_all_fail_gives_stubs_witness :
    (∀ k, failClient k = ClientResp.fail) ∧
    ((generate_questions_groq (chars "hr") 1 3 failClient zeroRng).isOk = true ∧
     genResItems (generate_questions_groq (chars "hr") 1 3 failClient zeroRng) =
       (backfill (normalize_role_key (chars "hr")) 3 zeroRng 1 0 [] []).1 ∧
     (genResItems (generate_questions_groq (chars "hr") 1 3 failClient zeroRng)).length = 1 ∧
     ∀ q ∈ genResItems (generate_questions_groq (chars "hr") 1 3 failClient zeroRng),
       ∃ t, q.text = trimStr t ∧
         q.type = (if is_math_question_textual t then QType.math else QType.reasoning)) :=
  ⟨fun _ => rfl,
   C3_all_fail_gives_stubs (chars "hr") 1 3 failClient zeroRng (fun _ => rfl)⟩

/-- The substring test of the model is exactly the infix relation. -/
theorem containsSub_eq_true_iff (needle : Str) :
    ∀ hay, containsSub hay needle = true ↔ needle <:+: hay := by
  intro hay
  induction hay with
  | nil =>
    rw [containsSub]
    constructor
    · intro h
      split at h
      · rename_i hp
        rw [List.isPrefixOf_iff_prefix] at hp
        exact hp.isInfix
      · exact Bool.noConfusion h
    · intro h
      have hn : needle = [] := List.infix_nil.1 h
      subst hn
      decide
  | cons c cs ih =>
    rw [containsSub]
    constructor
    · intro h
      split at h
      · rename_i hp
        rw [List.isPrefixOf_iff_prefix] at hp
        exact hp.isInfix
      · have h2 : containsSub cs needle = true := h
        exact List.infix_cons (ih.1 h2)
    · intro h
      by_cases hp : needle.isPrefixOf (c :: cs) = true
      · rw [if_pos hp]
      · rw [if_neg hp]
        show containsSub cs needle = true
        apply ih.2
        rcases h with ⟨s, t, hst⟩
        cases s with
        | nil =>
          exfalso
          apply hp
          rw [List.isPrefixOf_iff_prefix]
          exact ⟨t, by simpa using hst⟩
        | cons d ds =>
          injection hst with h1 h2
          exact ⟨ds, t, h2⟩

/-- A substring of s is a substring of s ++ t. -/
theorem containsSub_append_of_left (needle : Str) :
    ∀ s t, containsSub s needle = true → containsSub (s ++ t) needle = true := by
  intro s t h
  rw [containsSub_eq_true_iff] at h ⊢
  rcases h with ⟨u, v, huv⟩
  exact ⟨u, v ++ t, by rw [← huv]; simp⟩

/-- A substring of t is a substring of s ++ t. -/
theorem containsSub_append_of_right (needle : Str) :
    ∀ s t, containsSub t needle = true → containsSub (s ++ t) needle = true := by
  intro s t h
  rw [containsSub_eq_true_iff] at h ⊢
  rcases h with ⟨u, v, huv⟩
  exact ⟨s ++ u, v, by rw [← huv]; simp⟩

/-- A prompt built with math_needed = 0 carries the ZERO-math-items
instruction. -/
theorem build_prompt_zero_contains (role : Str) (n : Nat) (d : Int) :
    containsSub (build_prompt role n d 0) (chars "ZERO items") = true := by
  simp only [build_prompt]
  rw [if_neg (lt_irrefl 0)]
  apply containsSub_append_of_left
  apply containsSub_append_of_right
  apply containsSub_append_of_left
  apply containsSub_append_of_left
  decide

/-- The exact role ratio as a fraction over 20. -/
theorem roleMathRatio_eq_frac (k : Str) :
    roleMathRatio k = (roleMathRatioNum k : ℚ) / 20 := by
  rw [roleMathRatio, roleMathRatioNum]
  split_ifs <;> norm_num

/-- With a zero math quota, every prompt the collection loop sends (on
any client behaviour, including the prompts sent before a validation
crash) carries the ZERO-math-items instruction. -/
theorem genLoop_log_zero (client : Client) (role : Str) (d : Int) (n : Nat) :
    ∀ fuel st, (∀ p ∈ st.log, containsSub p (chars "ZERO items") = true) →
      ∀ p ∈ loopResLog (genLoop client role d n 0 fuel st),
        containsSub p (chars "ZERO items") = true := by
  intro fuel
  induction fuel with
  | zero => intro st hst; rw [genLoop]; exact hst
  | succ f ih =>
    intro st hst
    rw [genLoop]
    split
    · have hst' : ∀ p ∈ st.log ++
          [build_prompt (capitalizeStr role) (n - st.collected.length) d
            (min (n - st.collected.length) (0 - st.mathCount))],
          containsSub p (chars "ZERO items") = true := by
        intro p hp
        rcases List.mem_append.1 hp with hp | hp
        · exact hst p hp
        · rcases List.mem_singleton.1 hp with rfl
          rw [show min (n - st.collected.length) (0 - st.mathCount) = 0 from by omega]
          exact build_prompt_zero_contains (capitalizeStr role) (n - st.collected.length) d
      cases hresp : client st.ci with
      | fail => exact hst'
      | badParse => exact ih _ hst'
      | ok objs =>
        intro p hp
        dsimp only at hp
        split at hp
        · exact hst' p hp
        · exact ih _ hst' p hp
    · exact hst

/-- Every prompt the replacement loop sends carries the ZERO-math-items
instruction (replacement requests always ask for zero math items). -/
theorem enfLoop_log_zero (client : Client) (rk : Str) (d : Int)
    (allowed : List QType) :
    ∀ fuel st, (∀ p ∈ st.log, containsSub p (chars "ZERO items") = true) →
      ∀ p ∈ enfResLog (enfLoop client rk d allowed fuel st),
        containsSub p (chars "ZERO items") = true := by
  intro fuel
  induction fuel with
  | zero => intro st hst; rw [enfLoop]; exact hst
  | succ f ih =>
    intro st hst
    rw [enfLoop]
    split
    · exact hst
    · have hst' : ∀ p ∈ st.log ++ [build_prompt (capitalizeStr rk) st.rs d 0],
          containsSub p (chars "ZERO items") = true := by
        intro p hp
        rcases List.mem_append.1 hp with hp | hp
        · exact hst p hp
        · rcases List.mem_singleton.1 hp with rfl
          exact build_prompt_zero_contains (capitalizeStr rk) st.rs d
      cases hresp : client st.ci with
      | fail => exact hst'
      | badParse => exact hst'
      | ok objs =>
        intro p hp
        dsimp only at hp
        split at hp
        · exact hst' p hp
        · exact ih _ hst' p hp

/-- The ZERO-math-items log invariant survives the whole enforcement
stage. -/
theorem enforce_log_zero (client : Client) (rk : Str) (collected : List QItem)
    (n : Nat) (d : Int) (ci : Nat) (log : List Str)
    (hlog : ∀ p ∈ log, containsSub p (chars "ZERO items") = true) :
    ∀ p ∈ enfResLog (enforce_role_allowed_types client rk collected n d ci log),
      containsSub p (chars "ZERO items") = true := by
  simp only [enforce_role_allowed_types]
  split
  · rename_i l hl
    rw [← hl]
    exact enfLoop_log_zero client rk d (role_allowed_types rk) _ _ hlog
  · rename_i st hst
    show ∀ p ∈ enfResLog (Except.ok st : Except (List Str) EnfSt),
      containsSub p (chars "ZERO items") = true
    rw [← hst]
    exact enfLoop_log_zero client rk d (role_allowed_types rk) _ _ hlog

/-- C8: the math quota is round(n * ratio) over the exact role ratio
(Python banker's rounding; the source's max(0, .) is a no-op since the
quantities are nonnegative); the tech role resolves to key "technical"
with ratio 1/20, so a request for 5 questions has quota round(0.25) = 0
and every prompt of the whole request — collection loop and replacement
loop alike — carries the ZERO-math-items instruction. -/
theorem C8_math_quota_and_zero_prompts :
    (∀ (n : Nat) (k : Str),
      (mathNeededTotal n k : ℤ) = pyRound ((n : ℚ) * roleMathRatio k)) ∧
    normalize_role_key (chars "tech") = chars "technical" ∧
    roleMathRatio (chars "technical") = 1 / 20 ∧
    mathNeededTotal 5 (normalize_role_key (chars "tech")) = 0 ∧
    ∀ (d : Int) (client : Client) (rng : Rng),
      ∀ p ∈ genResLog (generate_questions_groq (chars "tech") 5 d client rng),
        containsSub p (chars "ZERO items") = true := by
  refine ⟨?_, by decide, ?_, by decide, ?_⟩
  · intro n k
    have hb := pyRoundNat_eq_pyRound (n * roleMathRatioNum k) 20 (by norm_num)
    rw [show (n : ℚ) * roleMathRatio k =
        ((n * roleMathRatioNum k : ℕ) : ℚ) / (((20 : ℕ)) : ℚ) from by
      rw [roleMathRatio_eq_frac]; push_cast; ring]
    exact hb
  · rw [roleMathRatio, if_neg (by decide), if_pos rfl]
  · intro d client rng
    have hmnt : mathNeededTotal 5 (normalize_role_key (chars "tech")) = 0 := by decide
    have hloop : ∀ p ∈ loopResLog (collectStage (chars "tech") 5 d client),
        containsSub p (chars "ZERO items") = true := by
      show ∀ p ∈ loopResLog (genLoop client (chars "tech") d 5
        (mathNeededTotal 5 (normalize_role_key (chars "tech"))) (max 3 (5 * 3))
        ⟨[], [], 0, 0, []⟩), containsSub p (chars "ZERO items") = true
      rw [hmnt]
      exact genLoop_log_zero client (chars "tech") d 5 (max 3 (5 * 3))
        ⟨[], [], 0, 0, []⟩ (by intro p hp; exact absurd hp (List.not_mem_nil p))
    unfold generate_questions_groq
    cases hc : collectStage (chars "tech") 5 d client with
    | error l =>
      rw [hc] at hloop
      exact hloop
    | ok st =>
      dsimp only
      have hstlog : ∀ p ∈ st.log, containsSub p (chars "ZERO items") = true := by
        rw [hc] at hloop; exact hloop
      have henf := enforce_log_zero client (normalize_role_key (chars "tech"))
        (st.collected.take 5) 5 d st.ci st.log hstlog
      cases he : enforce_role_allowed_types client (normalize_role_key (chars "tech"))
          (st.collected.take 5) 5 d st.ci st.log with
      | error l2 =>
        rw [he] at henf
        exact henf
      | ok enf =>
        rw [he] at henf
        exact henf

/-- Witness for C8_math_quota_and_zero_prompts: the quota identity at
n = 5 for the technical key, and the ZERO-items invariant over the
concrete log of a tech/5 request against the always-failing client. -/
theorem C8_math_quota_and_zero_prompts_witness :
    (mathNeededTotal 5 (chars "technical") : ℤ) =
      pyRound ((5 : ℚ) * roleMathRatio (chars "technical")) ∧
    (genResLog (generate_questions_groq (chars "tech") 5 3 failClient zeroRng)).all
      (fun p => containsSub p (chars "ZERO items")) = true :=
  ⟨C8_math_quota_and_zero_prompts.1 5 (chars "technical"),
   List.all_eq_true.2
     (C8_math_quota_and_zero_prompts.2.2.2.2 3 failClient zeroRng)⟩

/-- Enrichment never changes whether an item classifies as math: it
only touches items already typed math, and the type field is kept. -/
theorem ensure_not_math (q : QItem) :
    is_math_question (ensure_math_has_number q) = is_math_question q := by
  cases q with
  | mk tx kw df ty =>
    simp only [ensure_math_has_number]
    split
    · rename_i hc
      have h1 : ty = QType.math := hc.1
      subst h1
      simp [is_math_question]
    · rfl

/-- The swap step only removes items: its result is a sublist of its
input. -/
theorem swapOut_sublist : ∀ (r : Nat) (l : List QItem),
    List.Sublist (swapOut r l) l := by
  intro r l
  induction l generalizing r with
  | nil => cases r <;> exact List.Sublist.refl []
  | cons q t ih =>
    cases r with
    | zero => exact List.Sublist.refl _
    | succ m =>
      rw [swapOut]
      by_cases hq : q.type = QType.math
      · rw [if_pos hq]
        exact List.Sublist.cons₂ q (ih (m + 1))
      · rw [if_neg hq]
        exact List.Sublist.cons q (ih m)

/-- Every role's allowed-type set is either both types or reasoning
only. -/
theorem allowed_cases (k : Str) :
    role_allowed_types k = [QType.math, QType.reasoning] ∨
    role_allowed_types k = [QType.reasoning] := by
  rw [role_allowed_types]
  split_ifs <;> simp

/-- A zero math ratio forces the reasoning-only allowed set. -/
theorem ratio_zero_allowed (k : Str) (h : roleMathRatio k = 0) :
    role_allowed_types k = [QType.reasoning] := by
  rw [roleMathRatio] at h
  rw [role_allowed_types]
  split_ifs at h ⊢ <;> first | rfl | norm_num at h

/-- The items gathered by the absorb step keep the seen-signature list
exactly in sync with the collected items and duplicate-free. -/
theorem absorb_inv (n : Nat) :
    ∀ (objs : List (Option RawObj)) (c : List QItem) (s : List Str) (m : Nat),
      s = c.map (fun q => signature_of_text q.text) → s.Nodup →
      ∀ t, absorb n objs (c, s, m) = Except.ok t →
        t.2.1 = t.1.map (fun q => signature_of_text q.text) ∧ t.2.1.Nodup := by
  intro objs
  induction objs with
  | nil =>
    intro c s m hmap hnd t ht
    rw [absorb] at ht
    injection ht with ht2
    rw [← ht2]
    exact ⟨hmap, hnd⟩
  | cons o rest ih =>
    intro c s m hmap hnd t ht
    rw [absorb] at ht
    split at ht
    · exact Except.noConfusion ht
    · exact ih c s m hmap hnd t ht
    · rename_i v hv
      by_cases hsig : signature_of_text (ensure_math_has_number v).text ∈ s
      · rw [if_pos hsig] at ht
        exact ih c s m hmap hnd t ht
      · rw [if_neg hsig] at ht
        have hmap' : s ++ [signature_of_text (ensure_math_has_number v).text] =
            (c ++ [ensure_math_has_number v]).map
              (fun q => signature_of_text q.text) := by
          rw [List.map_append, ← hmap]
          rfl
        have hnd' : (s ++ [signature_of_text (ensure_math_has_number v).text]).Nodup := by
          rw [List.nodup_append]
          refine ⟨hnd, List.nodup_singleton _, ?_⟩
          intro a ha hb
          rw [List.mem_singleton] at hb
          subst hb
          exact hsig ha
        by_cases hlen : n ≤ (c ++ [ensure_math_has_number v]).length
        · rw [if_pos hlen] at ht
          injection ht with ht2
          rw [← ht2]
          exact ⟨hmap', hnd'⟩
        · rw [if_neg hlen] at ht
          exact ih _ _ _ hmap' hnd' t ht

/-- The collection loop preserves the signature-sync and no-duplicates
invariant on every normal outcome (the swap step only removes items,
and its seen list is rebuilt from the swapped collection). -/
theorem genLoop_inv (client : Client) (role : Str) (d : Int) (n mnt : Nat) :
    ∀ fuel st, st.seen = st.collected.map (fun q => signature_of_text q.text) →
      st.seen.Nodup →
      ∀ st2, genLoop client role d n mnt fuel st = Except.ok st2 →
        st2.seen = st2.collected.map (fun q => signature_of_text q.text) ∧
        st2.seen.Nodup := by
  intro fuel
  induction fuel with
  | zero =>
    intro st h1 h2 st2 hok
    rw [genLoop] at hok
    injection hok with h3
    rw [← h3]
    exact ⟨h1, h2⟩
  | succ f ih =>
    intro st h1 h2 st2 hok
    rw [genLoop] at hok
    split at hok
    · dsimp only at hok
      split at hok
      · injection hok with h3
        rw [← h3]
        exact ⟨h1, h2⟩
      · refine ih _ ?_ ?_ st2 hok
        · exact h1
        · exact h2
      · rename_i objs hresp
        split at hok
        · exact Except.noConfusion hok
        · rename_i t habs
          have hin := absorb_inv n objs st.collected st.seen st.mathCount h1 h2 t habs
          refine ih _ ?_ ?_ st2 hok
          · by_cases hcond : n ≤ t.1.length ∧ t.2.2 < mnt
            · show (if n ≤ t.1.length ∧ t.2.2 < mnt then
                  (swapOut (mnt - t.2.2) t.1,
                   (swapOut (mnt - t.2.2) t.1).map (fun q => signature_of_text q.text),
                   ((swapOut (mnt - t.2.2) t.1).filter (fun q => q.type = QType.math)).length)
                else t).2.1 =
                ((if n ≤ t.1.length ∧ t.2.2 < mnt then
                  (swapOut (mnt - t.2.2) t.1,
                   (swapOut (mnt - t.2.2) t.1).map (fun q => signature_of_text q.text),
                   ((swapOut (mnt - t.2.2) t.1).filter (fun q => q.type = QType.math)).length)
                else t).1).map (fun q => signature_of_text q.text)
              rw [if_pos hcond]
            · show (if n ≤ t.1.length ∧ t.2.2 < mnt then
                  (swapOut (mnt - t.2.2) t.1,
                   (swapOut (mnt - t.2.2) t.1).map (fun q => signature_of_text q.text),
                   ((swapOut (mnt - t.2.2) t.1).filter (fun q => q.type = QType.math)).length)
                else t).2.1 =
                ((if n ≤ t.1.length ∧ t.2.2 < mnt then
                  (swapOut (mnt - t.2.2) t.1,
                   (swapOut (mnt - t.2.2) t.1).map (fun q => signature_of_text q.text),
                   ((swapOut (mnt - t.2.2) t.1).filter (fun q => q.type = QType.math)).length)
                else t).1).map (fun q => signature_of_text q.text)
              rw [if_neg hcond]
              exact hin.1
          · by_cases hcond : n ≤ t.1.length ∧ t.2.2 < mnt
            · show ((if n ≤ t.1.length ∧ t.2.2 < mnt then
                  (swapOut (mnt - t.2.2) t.1,
                   (swapOut (mnt - t.2.2) t.1).map (fun q => signature_of_text q.text),
                   ((swapOut (mnt - t.2.2) t.1).filter (fun q => q.type = QType.math)).length)
                else t).2.1).Nodup
              rw [if_pos hcond]
              show ((swapOut (mnt - t.2.2) t.1).map (fun q => signature_of_text q.text)).Nodup
              have hsub := List.Sublist.map (fun q => signature_of_text q.text)
                (swapOut_sublist (mnt - t.2.2) t.1)
              rw [← hin.1] at hsub
              exact List.Nodup.sublist hsub hin.2
            · show ((if n ≤ t.1.length ∧ t.2.2 < mnt then
                  (swapOut (mnt - t.2.2) t.1,
                   (swapOut (mnt - t.2.2) t.1).map (fun q => signature_of_text q.text),
                   ((swapOut (mnt - t.2.2) t.1).filter (fun q => q.type = QType.math)).length)
                else t).2.1).Nodup
              rw [if_neg hcond]
              exact hin.2
    · injection hok with h3
      rw [← h3]
      exact ⟨h1, h2⟩

/-- The replacement absorb step keeps the policy: a kept item that
classifies as math is only possible when math is allowed. -/
theorem absorbRepl_policy (allowed : List QType) :
    ∀ (objs : List (Option RawObj)) (kept : List QItem) (rs : Nat),
      (∀ q ∈ kept, is_math_question q = true → QType.math ∈ allowed) →
      ∀ kr, absorbRepl allowed objs kept rs = Except.ok kr →
        ∀ q ∈ kr.1, is_math_question q = true → QType.math ∈ allowed := by
  intro objs
  induction objs with
  | nil =>
    intro kept rs h kr hkr
    rw [absorbRepl] at hkr
    injection hkr with h2
    rw [← h2]
    exact h
  | cons o rest ih =>
    intro kept rs h kr hkr
    rw [absorbRepl] at hkr
    split at hkr
    · exact Except.noConfusion hkr
    · exact ih kept rs h kr hkr
    · rename_i v hv
      by_cases hskip : is_math_question v = true ∧ QType.math ∉ allowed
      · rw [if_pos hskip] at hkr
        exact ih kept rs h kr hkr
      · rw [if_neg hskip] at hkr
        have happ : ∀ q ∈ kept ++ [ensure_math_has_number v],
            is_math_question q = true → QType.math ∈ allowed := by
          intro q hq hmq
          rcases List.mem_append.1 hq with hq | hq
          · exact h q hq hmq
          · rcases List.mem_singleton.1 hq with rfl
            rw [ensure_not_math] at hmq
            by_cases hm : QType.math ∈ allowed
            · exact hm
            · exact absurd ⟨hmq, hm⟩ hskip
        by_cases hrs : rs - 1 = 0
        · rw [if_pos hrs] at hkr
          injection hkr with h2
          rw [← h2]
          exact happ
        · rw [if_neg hrs] at hkr
          exact ih _ _ happ kr hkr

/-- The replacement loop keeps the policy on every normal outcome. -/
theorem enfLoop_policy (client : Client) (rk : Str) (d : Int)
    (allowed : List QType) :
    ∀ fuel st, (∀ q ∈ st.kept, is_math_question q = true → QType.math ∈ allowed) →
      ∀ st2, enfLoop client rk d allowed fuel st = Except.ok st2 →
        ∀ q ∈ st2.kept, is_math_question q = true → QType.math ∈ allowed := by
  intro fuel
  induction fuel with
  | zero =>
    intro st h st2 hok
    rw [enfLoop] at hok
    injection hok with h2
    rw [← h2]
    exact h
  | succ f ih =>
    intro st h st2 hok
    rw [enfLoop] at hok
    split at hok
    · injection hok with h2
      rw [← h2]
      exact h
    · dsimp only at hok
      split at hok
      · injection hok with h2
        rw [← h2]
        exact h
      · injection hok with h2
        rw [← h2]
        exact h
      · rename_i objs hresp
        split at hok
        · exact Except.noConfusion hok
        · rename_i kr habs
          refine ih _ ?_ st2 hok
          exact absorbRepl_policy allowed objs st.kept st.rs h kr habs

/-- Enforcement keeps the policy: on a normal outcome, any kept item
classifying as math certifies that math is in the allowed set. -/
theorem enforce_policy (client : Client) (rk : Str) (collected : List QItem)
    (n : Nat) (d : Int) (ci : Nat) (log : List Str) (enf : EnfSt)
    (henf : enforce_role_allowed_types client rk collected n d ci log = Except.ok enf) :
    ∀ q ∈ enf.kept, is_math_question q = true →
      QType.math ∈ role_allowed_types rk := by
  simp only [enforce_role_allowed_types] at henf
  split at henf
  · exact Except.noConfusion henf
  · rename_i st2 hst2
    injection henf with h2
    rw [← h2]
    intro q hq hmq
    have hq2 : q ∈ st2.kept := List.mem_of_mem_take hq
    refine enfLoop_policy client rk d (role_allowed_types rk) _ _ ?_ st2 hst2 q hq2 hmq
    intro p hp hpm
    have hp2 := List.of_mem_filter hp
    simp only [hpm, Bool.true_and, Bool.not_not] at hp2
    simpa using hp2

/-- C1 (amended): on every client and random-source behaviour the
result of generate_questions_groq has at most n items; whenever the
collection loop completes normally its items have pairwise-distinct
signatures; and whenever the enforcement stage completes normally every
surviving item (before stub backfill) has its type in the role's
allowed-type set and, for a zero-math-ratio role, does not classify as
math. -/
theorem C1_amended_pipeline_invariants (role : Str) (n : Nat) (d : Int)
    (client : Client) (rng : Rng) :
    (genResItems (generate_questions_groq role n d client rng)).length ≤ n ∧
    (∀ st, collectStage role n d client = Except.ok st →
      (st.collected.map (fun q => signature_of_text q.text)).Nodup) ∧
    (∀ enf, enforceStage role n d client = Except.ok enf →
      ∀ q ∈ enf.kept, q.type ∈ role_allowed_types (normalize_role_key role)) ∧
    (roleMathRatio (normalize_role_key role) = 0 →
      ∀ enf, enforceStage role n d client = Except.ok enf →
        ∀ q ∈ enf.kept, is_math_question q = false) := by
  refine ⟨?_, ?_, ?_, ?_⟩
  · cases hg : generate_questions_groq role n d client rng with
    | error l => simp [genResItems]
    | ok out =>
      have hlen := generate_ok_length role n d client rng out hg
      show out.items.length ≤ n
      omega
  · intro st hst
    have hin := genLoop_inv client role d n
      (mathNeededTotal n (normalize_role_key role)) (max 3 (n * 3))
      ⟨[], [], 0, 0, []⟩ rfl List.nodup_nil st hst
    rw [← hin.1]
    exact hin.2
  · intro enf henf q hq
    unfold enforceStage at henf
    split at henf
    · exact Except.noConfusion henf
    · rename_i st hc
      have hpol := enforce_policy client (normalize_role_key role)
        (st.collected.take n) n d st.ci st.log enf henf q hq
      rcases allowed_cases (normalize_role_key role) with hal | hal
      · rw [hal]
        cases hqt : q.type <;> simp
      · rw [hal]
        cases hqt : q.type with
        | reasoning => simp
        | math =>
          have hm : is_math_question q = true := by
            rw [is_math_question, hqt]
            simp
          have h2 := hpol hm
          rw [hal] at h2
          simp at h2
  · intro hz enf henf q hq
    unfold enforceStage at henf
    split at henf
    · exact Except.noConfusion henf
    · rename_i st hc
      have hpol := enforce_policy client (normalize_role_key role)
        (st.collected.take n) n d st.ci st.log enf henf q hq
      cases hmq : is_math_question q with
      | false => rfl
      | true =>
        have h2 := hpol hmq
        rw [ratio_zero_allowed _ hz] at h2
        simp at h2

/-- Witness for C1_amended_pipeline_invariants: the hr role (zero math
ratio) with one requested question and the always-failing client. -/
theorem C1_amended_pipeline_invariants_witness :
    (genResItems (generate_questions_groq (chars "hr") 1 3 failClient zeroRng)).length ≤ 1 ∧
    (∀ st, collectStage (chars "hr") 1 3 failClient = Except.ok st →
      (st.collected.map (fun q => signature_of_text q.text)).Nodup) ∧
    (∀ enf, enforceStage (chars "hr") 1 3 failClient = Except.ok enf →
      ∀ q ∈ enf.kept, q.type ∈ role_allowed_types (normalize_role_key (chars "hr"))) ∧
    (∀ enf, enforceStage (chars "hr") 1 3 failClient = Except.ok enf →
      ∀ q ∈ enf.kept, is_math_question q = false) := by
  have h := C1_amended_pipeline_invariants (chars "hr") 1 3 failClient zeroRng
  have hz : roleMathRatio (normalize_role_key (chars "hr")) = 0 := by
    rw [show normalize_role_key (chars "hr") = chars "hr" from by decide]
    rw [roleMathRatio, if_neg (by decide), if_neg (by decide), if_pos rfl]
  exact ⟨h.1, h.2.1, h.2.2.1, h.2.2.2 hz⟩

/-- C1 (counterexample): the distinctness and typing guarantees do not
extend to the final result.  For the hr role (math ratio 0, reasoning
only) the always-failing client yields a stub typed math; and a
replacement call re-delivering an already-kept question yields a final
result with two equal signatures. -/
theorem C1_counterexample :
    (genResItems (generate_questions_groq (chars "hr") 1 3 failClient zeroRng)).map
      (fun q => q.type) = [QType.math] ∧
    roleMathRatio (normalize_role_key (chars "hr")) = 0 ∧
    QType.math ∉ role_allowed_types (normalize_role_key (chars "hr")) ∧
    ¬ ((genResItems (generate_questions_groq (chars "hr") 2 3 dupClient zeroRng)).map
      (fun q => signature_of_text q.text)).Nodup := by
  refine ⟨by decide, ?_, by decide, by decide⟩
  rw [show normalize_role_key (chars "hr") = chars "hr" from by decide]
  rw [roleMathRatio, if_neg (by decide), if_neg (by decide), if_pos rfl]
